import Mathlib

/-!
Verification model of the dataset-acquisition pipeline in `downloader.py`
(link discovery, candidate classification, Google-Drive id extraction and
the download strategy cascade).  Pure string manipulation is embedded
directly; library boundary functions (`urllib.parse`, `os.path`,
`requests.compat.urljoin`) are modelled as total functions over `List Char`
at the granularity the pipeline relies on (percent-decoding is not
modelled: no code path in the repository depends on it).
-/

namespace Downloader

/-! ### Character-list utilities (models of Python string primitives) -/

/-- Model of Python `needle in hay` (substring containment). -/
def subList (needle : List Char) : List Char → Bool
  | [] => needle.isEmpty
  | c :: rest => needle.isPrefixOf (c :: rest) || subList needle rest

/-- Model of Python `str.lower()` (ASCII case folding suffices here). -/
def lowerChars (l : List Char) : List Char := l.map Char.toLower

/-- Model of Python `str.strip()`: drop whitespace from both ends. -/
def stripChars (l : List Char) : List Char :=
  ((l.dropWhile Char.isWhitespace).reverse.dropWhile Char.isWhitespace).reverse

/-- Split at the first occurrence of `c`: returns (before, after-without-`c`);
when `c` is absent the second component is empty. -/
def cutAtFirst (c : Char) : List Char → List Char × List Char
  | [] => ([], [])
  | x :: xs =>
    if x = c then ([], xs)
    else
      let r := cutAtFirst c xs
      (x :: r.1, r.2)

/-- Model of Python `str.split(sep)` for a single-character separator. -/
def splitOnChar (sep : Char) : List Char → List (List Char)
  | [] => [[]]
  | c :: rest =>
    match splitOnChar sep rest with
    | [] => [[c]]
    | h :: t => if c = sep then [] :: h :: t else (c :: h) :: t

/-! ### Model of `urllib.parse` at the granularity the pipeline uses -/

/-- Everything after the first `://`, when present. -/
def afterSchemeSep : List Char → Option (List Char)
  | ':' :: '/' :: '/' :: rest => some rest
  | _ :: rest => afterSchemeSep rest
  | [] => none

/-- Strip the fragment (everything from the first `#`). -/
def dropFragment (url : List Char) : List Char := (cutAtFirst '#' url).1

/-- Model of `urlparse(url).query`: text after the first `?` (fragment removed). -/
def urlQueryChars (url : List Char) : List Char :=
  (cutAtFirst '?' (dropFragment url)).2

/-- Model of `urlparse(url).path` for `scheme://host/path` shaped URLs: the
part of the pre-query text from the first `/` after the authority. -/
def urlPathChars (url : List Char) : List Char :=
  let beforeQ := (cutAtFirst '?' (dropFragment url)).1
  match afterSchemeSep beforeQ with
  | some rest => rest.dropWhile (fun c => !(c = '/'))
  | none => beforeQ

/-- Model of `os.path.basename`: the segment after the last `/`. -/
def basenameChars (p : List Char) : List Char :=
  (p.reverse.takeWhile (fun c => !(c = '/'))).reverse

/-- Model of `urllib.parse.parse_qs` with default options: split the query on
`&`, split each field at the first `=`, and drop fields whose value is empty
(which also drops fields with no `=` at all). -/
def qsFields (q : List Char) : List (List Char × List Char) :=
  (splitOnChar '&' q).filterMap fun f =>
    let nv := cutAtFirst '=' f
    if nv.2.isEmpty then none else some nv

/-- Model of `parse_qs(q)[key][0]` guarded by `key in qs`: the first
nonempty value bound to `key`, if any. -/
def parse_qs_first (q : List Char) (key : List Char) : Option (List Char) :=
  ((qsFields q).find? fun f => f.1 = key).map (·.2)

/-! ### `downloader.py` utilities -/

/-- Embedding of `is_google_drive` (line 55): a substring test over the
entire URL string. -/
def is_google_drive (url : String) : Bool :=
  subList "drive.google.com".data url.data || subList "docs.google.com".data url.data

/-- Character class of the regex `[a-zA-Z0-9_-]` in `extract_drive_id`. -/
def isDriveIdChar (c : Char) : Bool :=
  ('a' ≤ c && c ≤ 'z') || ('A' ≤ c && c ≤ 'Z') || ('0' ≤ c && c ≤ '9') ||
    c = '_' || c = '-'

/-- Embedding of `re.search(r"/d/([a-zA-Z0-9_-]+)", url)`: leftmost
occurrence of `/d/` followed by at least one id character; the capture is
the maximal run of id characters. -/
def findDriveId : List Char → Option (List Char)
  | [] => none
  | c :: rest =>
    match c, rest with
    | '/', 'd' :: '/' :: rest2 =>
      match rest2.takeWhile isDriveIdChar with
      | [] => findDriveId rest
      | i :: is => some (i :: is)
    | _, _ => findDriveId rest

/-- Embedding of `extract_drive_id` (lines 58-66): the `/d/<id>` regex over
the whole URL first, then the `id` query parameter, else `None`. -/
def extract_drive_id (url : String) : Option String :=
  match findDriveId url.data with
  | some i => some (String.mk i)
  | none => (parse_qs_first (urlQueryChars url.data) "id".data).map String.mk

/-- Embedding of the filename computation in `try_download_link`
(lines 168-173): basename of the URL path, with placeholder
`downloaded_file` when that is empty, overridden by a `filename` query
parameter when present. -/
def inferred_filename (url : String) : String :=
  let base := basenameChars (urlPathChars url.data)
  let fname := if base.isEmpty then "downloaded_file".data else base
  match parse_qs_first (urlQueryChars url.data) "filename".data with
  | some v => String.mk v
  | none => String.mk fname

/-! ### Sorting (model of Python `sorted` on strings) -/

/-- Python string comparison: lexicographic by code point. -/
def charListLe : List Char → List Char → Bool
  | [], _ => true
  | _ :: _, [] => false
  | a :: as, b :: bs =>
    if a.toNat = b.toNat then charListLe as bs else decide (a.toNat < b.toNat)

/-- Lexicographic order on strings, as Python `sorted` uses. -/
def strLe (a b : String) : Bool := charListLe a.data b.data

/-- Insert into a sorted list (insertion-sort step). -/
def insertLe (x : String) : List String → List String
  | [] => [x]
  | y :: ys => if strLe x y then x :: y :: ys else y :: insertLe x ys

/-- Model of Python `sorted` on a list of strings. -/
def sortStrings : List String → List String
  | [] => []
  | x :: xs => insertLe x (sortStrings xs)

/-! ### Candidate classifier (`filter_candidate_download_links`, lines 131-154) -/

/-- Source kinds of the spec's Candidate data model. -/
inductive SourceKind
  | cloud_drive
  | generic_hosted
  | direct_file
  deriving DecidableEq, Repr

/-- Embedding of `re.search(r"\.(zip|tar\.gz|tar|7z|mp4|mkv|bin|tgz|tar\.bz2)$", lower)`
(line 139): since every alternative is a literal and the pattern is
end-anchored, the regex matches iff the lowered URL string ends with one of
the dotted extensions. -/
def extTest (lower : List Char) : Bool :=
  [".zip", ".tar.gz", ".tar", ".7z", ".mp4", ".mkv", ".bin", ".tgz", ".tar.bz2"].any
    fun e => List.isSuffixOf e.data lower

/-- Per-URL decision of `filter_candidate_download_links`, with the rule
that fired mapped to the spec's source kind (extension rule → direct_file;
drive/kaggle/dropbox/baidu hosts → cloud_drive when Google-drive-shaped,
else generic_hosted; object-storage hosts and the long-query rule →
generic_hosted). -/
def classify (u : String) : Option SourceKind :=
  let lower := lowerChars u.data
  if extTest lower then some .direct_file
  else if subList "drive.google.com".data lower || subList "kaggle.com".data lower ||
      subList "dropbox.com".data lower || subList "pan.baidu.com".data lower then
    some (if is_google_drive u then .cloud_drive else .generic_hosted)
  else if subList "s3.amazonaws.com".data lower || subList "storage.googleapis.com".data lower ||
      subList "box.com".data lower then
    some .generic_hosted
  else if 20 < (urlQueryChars u.data).length &&
      (subList "download".data lower || subList "id=".data lower) then
    some .generic_hosted
  else none

/-- Embedding of `filter_candidate_download_links` (lines 131-154): keep the
URLs some rule accepts, then `sorted(set(...))`. -/
def filter_candidate_download_links (links : List String) : List String :=
  sortStrings ((links.filter fun u => (classify u).isSome).dedup)

/-! ### Page discovery (`find_links_on_page`, lines 107-129) -/

/-- Modelled boundary capability `requests.compat.urljoin`: absolute hrefs
(containing `://`) pass through unchanged; root-relative hrefs replace the
base path; other hrefs replace the last path segment of the base. -/
def urljoin (base href : String) : String :=
  if href.data.isEmpty then base
  else if subList "://".data href.data then href
  else if "/".data.isPrefixOf href.data then
    match afterSchemeSep base.data with
    | some rest =>
      String.mk (base.data.take (base.data.length - rest.length) ++ (cutAtFirst '/' rest).1) ++ href
    | none => href
  else
    String.mk ((base.data.reverse.dropWhile fun c => !(c = '/')).reverse) ++ href

/-- Embedding of `find_links_on_page` (lines 119-129) after the page body
has been parsed into the document-ordered sequence of anchor `href`
attributes: strip each href, drop `mailto:` and `javascript:` anchors,
resolve against the page URL, deduplicate (Python builds a `set`), and
return `sorted(links)`. -/
def find_links_on_page (base : String) (hrefs : List String) : List String :=
  sortStrings
    ((((hrefs.map fun h => String.mk (stripChars h.data)).filter fun h =>
        !("mailto:".data.isPrefixOf h.data || "javascript:".data.isPrefixOf h.data)).map
      (urljoin base)).dedup)

/-- Embedding of `discover_download_links` (lines 158-164); `fetch` is the
boundary capability mapping a seed page to its anchor hrefs in document
order. -/
def discover_download_links (fetch : String → List String) (pages : List String) :
    List (String × List String) :=
  pages.map fun p => (p, filter_candidate_download_links (find_links_on_page p (fetch p)))

/-! ### Strategy cascade (`try_download_link`, lines 166-207) -/

/-- Attempt outcomes of the spec's DownloadAttempt taxonomy. -/
inductive Outcome
  | success
  | capability_unavailable
  | transient_failure
  | fatal_failure
  deriving DecidableEq, Repr

/-- The three strategies of the cascade. -/
inductive Strategy
  | drive
  | wget
  | stream
  deriving DecidableEq, Repr

/-- One DownloadAttempt: a strategy paired with its outcome. -/
structure Attempt where
  strategy : Strategy
  outcome : Outcome
  deriving DecidableEq, Repr

/-- Environment of boundary capabilities consulted by the cascade:
whether `gdown` imported, whether a `gdown.download` call succeeds, whether
`wget` is on PATH, whether the `wget` subprocess exits 0, and whether the
streaming `requests` download succeeds. -/
structure Env where
  has_gdown : Bool
  gdown_ok : Bool
  wget_available : Bool
  wget_exit_zero : Bool
  stream_ok : Bool
  deriving DecidableEq, Repr

/-- The attempt recorded by the final streaming-fetch strategy
(`stream_download`, called at line 203): any error there is the cascade's
terminal failure. -/
def streamAttempt (env : Env) : Attempt :=
  ⟨.stream, if env.stream_ok then .success else .fatal_failure⟩

/-- Embedding of `try_download_link` (lines 166-207), instrumented with the
spec's attempt log.  Google-Drive URLs: unresolvable id returns False at
once (fatal); with gdown installed the download either succeeds or its
exception is caught and False returned; without gdown the function prints
and returns False.  Other URLs: `maybe_wget` returning True succeeds; a
`CalledProcessError` is caught and control falls to `stream_download`, as
does `maybe_wget` returning False when wget is absent. -/
def try_download_link (env : Env) (url : String) : List Attempt × Bool :=
  if is_google_drive url then
    match extract_drive_id url with
    | none => ([⟨.drive, .fatal_failure⟩], false)
    | some _ =>
      if env.has_gdown then
        if env.gdown_ok then ([⟨.drive, .success⟩], true)
        else ([⟨.drive, .fatal_failure⟩], false)
      else ([⟨.drive, .capability_unavailable⟩], false)
  else
    if env.wget_available then
      if env.wget_exit_zero then ([⟨.wget, .success⟩], true)
      else ([⟨.wget, .transient_failure⟩, streamAttempt env], env.stream_ok)
    else ([⟨.wget, .capability_unavailable⟩, streamAttempt env], env.stream_ok)

/-! ### Orchestrator (`main`, lines 211-250) -/

/-- Observable filesystem/network effects of one `main` invocation:
whether the output directory was created, the destination paths the
download phase may write, the URLs handed to the strategy cascade, and the
per-link success results the code reports as OK/FAILED. -/
structure RunResult where
  outdir_created : Bool
  files_written : List String
  cascade_invoked : List String
  outcomes : List Bool
  deriving Repr

/-- Embedding of `main` (lines 211-250): create the output directory,
discover, and stop after reporting when no candidate was found or when
`--dry-run` was given; otherwise run the cascade for every link of every
page's candidate list, in order.  `files_written` lists the destination
paths the attempts may create. -/
def main_run (env : Env) (fetch : String → List String) (pages : List String)
    (outdir : String) (dry_run : Bool) : RunResult :=
  let discovered := discover_download_links fetch pages
  let total := ((discovered.map Prod.snd).map List.length).sum
  if total = 0 then ⟨true, [], [], []⟩
  else if dry_run then ⟨true, [], [], []⟩
  else
    let links := (discovered.map Prod.snd).flatten
    ⟨true, links.map (fun l => outdir ++ "/" ++ inferred_filename l), links,
      links.map fun l => (try_download_link env l).2⟩

/-! ### Properties of the sorting model -/

theorem charListLe_total : ∀ a b : List Char, charListLe a b = true ∨ charListLe b a = true
  | [], _ => Or.inl rfl
  | _ :: _, [] => Or.inr rfl
  | a :: as, b :: bs => by
    by_cases h : a.toNat = b.toNat
    · rcases charListLe_total as bs with h' | h'
      · exact Or.inl (by simp [charListLe, h, h'])
      · exact Or.inr (by simp [charListLe, h.symm, h'])
    · rcases Nat.lt_or_ge a.toNat b.toNat with hlt | hge
      · exact Or.inl (by simp [charListLe, h, hlt])
      · have hba : b.toNat < a.toNat := lt_of_le_of_ne hge fun e => h e.symm
        right
        simp only [charListLe]
        rw [if_neg (by omega)]
        simpa using hba

theorem charListLe_trans :
    ∀ a b c : List Char, charListLe a b = true → charListLe b c = true → charListLe a c = true
  | [], _, _, _, _ => rfl
  | _ :: _, [], _, h1, _ => by simp [charListLe] at h1
  | _ :: _, _ :: _, [], _, h2 => by simp [charListLe] at h2
  | a :: as, b :: bs, c :: cs, h1, h2 => by
    simp only [charListLe] at h1 h2 ⊢
    split_ifs at h1 h2 ⊢ with hab hbc hac hac hac hac <;>
      simp only [decide_eq_true_eq] at * <;>
      first
        | exact charListLe_trans as bs cs h1 h2
        | omega

theorem strLe_total (a b : String) : strLe a b = true ∨ strLe b a = true :=
  charListLe_total a.data b.data

theorem strLe_trans {a b c : String} (h1 : strLe a b = true) (h2 : strLe b c = true) :
    strLe a c = true :=
  charListLe_trans a.data b.data c.data h1 h2

theorem insertLe_perm (x : String) : ∀ l : List String, List.Perm (insertLe x l) (x :: l)
  | [] => List.Perm.refl _
  | y :: ys => by
    by_cases h : strLe x y = true
    · simp [insertLe, h]
    · simp only [insertLe, h, if_false]
      exact ((insertLe_perm x ys).cons y).trans (List.Perm.swap x y ys)

theorem sortStrings_perm : ∀ l : List String, List.Perm (sortStrings l) l
  | [] => List.Perm.refl _
  | x :: xs => (insertLe_perm x (sortStrings xs)).trans ((sortStrings_perm xs).cons x)

theorem pairwise_insertLe (x : String) (l : List String)
    (h : l.Pairwise fun a b => strLe a b = true) :
    (insertLe x l).Pairwise fun a b => strLe a b = true := by
  induction l with
  | nil => simp [insertLe]
  | cons y ys ih =>
    rw [List.pairwise_cons] at h
    obtain ⟨hy, hys⟩ := h
    by_cases hxy : strLe x y = true
    · simp only [insertLe, hxy, if_true]
      refine List.Pairwise.cons ?_ (List.pairwise_cons.mpr ⟨hy, hys⟩)
      intro b hb
      rcases List.mem_cons.mp hb with rfl | hb
      · exact hxy
      · exact strLe_trans hxy (hy b hb)
    · simp only [insertLe, hxy, if_false]
      refine List.Pairwise.cons ?_ (ih hys)
      intro b hb
      rcases List.mem_cons.mp ((insertLe_perm x ys).mem_iff.mp hb) with rfl | hb
      · rcases strLe_total b y with h1 | h1
        · exact absurd h1 hxy
        · exact h1
      · exact hy b hb

theorem sortStrings_sorted : ∀ l : List String, (sortStrings l).Pairwise fun a b => strLe a b = true
  | [] => List.Pairwise.nil
  | x :: xs => pairwise_insertLe x _ (sortStrings_sorted xs)

theorem sortStrings_nodup {l : List String} (h : l.Nodup) : (sortStrings l).Nodup :=
  ((sortStrings_perm l).nodup_iff).mpr h

theorem filter_candidate_nodup (links : List String) :
    (filter_candidate_download_links links).Nodup :=
  sortStrings_nodup (List.nodup_dedup _)

/-! ### Properties of the query-string model -/

theorem qsFields_value_ne_nil (q : List Char) : ∀ f ∈ qsFields q, f.2 ≠ [] := by
  intro f hf
  simp only [qsFields, List.mem_filterMap] at hf
  obtain ⟨a, -, ha⟩ := hf
  by_cases h : (cutAtFirst '=' a).2.isEmpty = true
  · rw [if_pos h] at ha
    exact absurd ha (by simp)
  · rw [if_neg h] at ha
    obtain rfl := Option.some.inj ha
    simpa [List.isEmpty_iff] using h

theorem parse_qs_first_ne_nil {q key : List Char} {v : List Char}
    (h : parse_qs_first q key = some v) : v ≠ [] := by
  simp only [parse_qs_first, Option.map_eq_some'] at h
  obtain ⟨f, hfind, rfl⟩ := h
  exact qsFields_value_ne_nil q f (List.mem_of_find?_eq_some hfind)

/-! ### Counting lemmas for the orchestrator -/

theorem count_flatten_of_nodup (url : String) :
    ∀ ls : List (List String), (∀ l ∈ ls, l.Nodup) →
      ls.flatten.count url = ls.countP fun l => decide (url ∈ l)
  | [], _ => rfl
  | l :: ls, h => by
    have hl : l.Nodup := h l (List.mem_cons_self l ls)
    have ih := count_flatten_of_nodup url ls fun x hx => h x (List.mem_cons_of_mem l hx)
    simp only [List.flatten_cons, List.count_append, List.countP_cons, ih]
    rw [List.count_eq_of_nodup hl]
    by_cases hm : url ∈ l <;> simp [hm] <;> omega

theorem lengths_sum_zero {f : String → List String} :
    ∀ pages : List String, ((pages.map f).map List.length).sum = 0 →
      ∀ p ∈ pages, f p = []
  | [], _, p, hp => absurd hp (List.not_mem_nil p)
  | q :: pages, h, p, hp => by
    simp only [List.map_cons, List.sum_cons] at h
    obtain ⟨h1, h2⟩ := Nat.add_eq_zero.mp h
    rcases List.mem_cons.mp hp with rfl | hp
    · exact List.length_eq_zero.mp h1
    · exact lengths_sum_zero pages h2 p hp

theorem flatten_nil_of_lengths_sum_zero :
    ∀ ls : List (List String), (ls.map List.length).sum = 0 → ls.flatten = []
  | [], _ => rfl
  | l :: ls, h => by
    simp only [List.map_cons, List.sum_cons] at h
    obtain ⟨h1, h2⟩ := Nat.add_eq_zero.mp h
    simp [List.length_eq_zero.mp h1, flatten_nil_of_lengths_sum_zero ls h2]

theorem main_run_full_cascade (env : Env) (fetch : String → List String)
    (pages : List String) (outdir : String) :
    (main_run env fetch pages outdir false).cascade_invoked =
      ((discover_download_links fetch pages).map Prod.snd).flatten := by
  simp only [main_run]
  by_cases h0 :
      (((discover_download_links fetch pages).map Prod.snd).map List.length).sum = 0
  · rw [if_pos h0]
    exact (flatten_nil_of_lengths_sum_zero _ h0).symm
  · rw [if_neg h0]
    rfl

theorem discover_snd (fetch : String → List String) (pages : List String) :
    (discover_download_links fetch pages).map Prod.snd =
      pages.map fun p => filter_candidate_download_links (find_links_on_page p (fetch p)) := by
  rw [discover_download_links, List.map_map]
  rfl

/-! ### Claims -/

/-- C1 (counterexample): for the cloud-drive URL
`https://drive.google.com/file/d/ABC123/view` with a resolvable identifier
and `gdown` absent, the cascade records `capability_unavailable` but ends
immediately with failure: contrary to the claim, no streaming-fetch
(strategy 3) attempt follows. -/
theorem gdown_missing_no_stream_counterexample :
    extract_drive_id "https://drive.google.com/file/d/ABC123/view" = some "ABC123" ∧
    try_download_link ⟨false, true, true, true, true⟩
        "https://drive.google.com/file/d/ABC123/view" =
      ([⟨Strategy.drive, Outcome.capability_unavailable⟩], false) ∧
    ∀ a ∈ (try_download_link ⟨false, true, true, true, true⟩
        "https://drive.google.com/file/d/ABC123/view").1,
      a.strategy ≠ Strategy.stream := by
  refine ⟨by decide, by decide, by decide⟩

/-- C1 (amended): for every cloud-drive candidate whose identifier is
resolvable but whose specialized retrieval capability (gdown) is
unavailable, the cascade records the attempt as `capability_unavailable`
and ends the candidate's cascade at that point with failure, attempting no
further strategy. -/
theorem gdown_missing_ends_cascade (env : Env) (url i : String)
    (hdrive : is_google_drive url = true)
    (hid : extract_drive_id url = some i)
    (hgdown : env.has_gdown = false) :
    try_download_link env url =
      ([⟨Strategy.drive, Outcome.capability_unavailable⟩], false) := by
  simp [try_download_link, hdrive, hid, hgdown]

/-- C1 (witness): the amended statement instantiated at a concrete drive
URL and an environment without gdown. -/
theorem gdown_missing_ends_cascade_witness :
    try_download_link ⟨false, true, true, true, true⟩ "https://drive.google.com/uc?id=FILE42" =
      ([⟨Strategy.drive, Outcome.capability_unavailable⟩], false) :=
  gdown_missing_ends_cascade ⟨false, true, true, true, true⟩ _ "FILE42" (by decide) (by decide) rfl

/-- C2 (counterexample): the same candidate URL discovered on two seed
pages is handed to the strategy cascade twice in a full run: the download
is not deduplicated across seed pages. -/
theorem crosspage_duplicate_counterexample :
    (main_run ⟨true, true, true, true, true⟩ (fun _ => ["https://host.example/data.zip"])
        ["https://seed1.example/", "https://seed2.example/"] "./downloads" false).cascade_invoked =
      ["https://host.example/data.zip", "https://host.example/data.zip"] := by
  decide

/-- C2 (amended): discovered links are deduplicated by absolute URL within
each seed page only; in a full run the cascade is attempted for a URL once
per seed page whose candidate list contains it, so a URL appearing on two
seed pages is downloaded twice, not once. -/
theorem cascade_attempted_once_per_page (env : Env) (fetch : String → List String)
    (pages : List String) (outdir url : String) :
    (main_run env fetch pages outdir false).cascade_invoked.count url =
      pages.countP fun p =>
        decide (url ∈ filter_candidate_download_links (find_links_on_page p (fetch p))) := by
  have hnodup : ∀ l ∈ pages.map
      (fun p => filter_candidate_download_links (find_links_on_page p (fetch p))), l.Nodup := by
    intro l hl
    obtain ⟨p, -, rfl⟩ := List.mem_map.mp hl
    exact filter_candidate_nodup _
  rw [main_run_full_cascade, discover_snd, count_flatten_of_nodup url _ hnodup,
    List.countP_map]
  rfl

/-- C3 (counterexample): the URL `https://host.example/file.zip?sig=1` has
a path ending in the known extension `zip`, yet the classifier rejects it:
the extension regex is anchored at the end of the whole URL string, so a
query string after the path defeats it. -/
theorem extension_defeated_by_query_counterexample :
    List.isSuffixOf ".zip".data
        (lowerChars (urlPathChars "https://host.example/file.zip?sig=1".data)) = true ∧
    classify "https://host.example/file.zip?sig=1" = none := by
  refine ⟨by decide, by decide⟩

/-- C3 (amended): the Candidate Classifier accepts a URL as `direct_file`
exactly when the entire lowered URL string (path, query and all) ends with
one of the known dotted extensions; in particular a query string after the
path defeats the extension rule. -/
theorem direct_file_iff_whole_url_ends_with_extension (u : String) :
    classify u = some SourceKind.direct_file ↔
      ([".zip", ".tar.gz", ".tar", ".7z", ".mp4", ".mkv", ".bin", ".tgz", ".tar.bz2"].any
        fun e => List.isSuffixOf e.data (lowerChars u.data)) = true := by
  unfold classify
  by_cases h1 : extTest (lowerChars u.data) = true
  · rw [if_pos h1]
    exact iff_of_true rfl h1
  · rw [if_neg h1]
    refine iff_of_false (fun h => ?_) h1
    split_ifs at h <;> simp at h

/-- C4: for every URL, identifier extraction returns the id captured by
the `/d/<id>` pattern whenever that pattern matches (`.../file/d/ABC123/view`
yields exactly `ABC123`); whenever the pattern does not match it falls back
to the `id` query parameter (`?id=XYZ789&foo=bar` yields `XYZ789`); and it
returns none when neither matches. -/
theorem extract_drive_id_spec :
    (∀ (url : String) (i : List Char), findDriveId url.data = some i →
      extract_drive_id url = some (String.mk i)) ∧
    (∀ (url : String) (v : List Char), findDriveId url.data = none →
      parse_qs_first (urlQueryChars url.data) "id".data = some v →
      extract_drive_id url = some (String.mk v)) ∧
    (∀ url : String, findDriveId url.data = none →
      parse_qs_first (urlQueryChars url.data) "id".data = none →
      extract_drive_id url = none) ∧
    extract_drive_id "https://drive.google.com/file/d/ABC123/view" = some "ABC123" ∧
    extract_drive_id "https://docs.google.com/open?id=XYZ789&foo=bar" = some "XYZ789" := by
  refine ⟨?_, ?_, ?_, by decide, by decide⟩
  · intro url i h1
    simp [extract_drive_id, h1]
  · intro url v h1 h2
    simp [extract_drive_id, h1, h2]
  · intro url h1 h2
    simp [extract_drive_id, h1, h2]

/-- C4 (witness): the pattern clause at a URL with a `/d/<id>` segment,
the fallback clause at a URL with only an `id` parameter, and the none
clause at a URL with neither. -/
theorem extract_drive_id_spec_witness :
    extract_drive_id "https://w.example/file/d/WID9/view" = some "WID9" ∧
    extract_drive_id "https://h.example/get?id=QQ77" = some "QQ77" ∧
    extract_drive_id "https://example.com/page" = none :=
  ⟨extract_drive_id_spec.1 "https://w.example/file/d/WID9/view" "WID9".data (by decide),
    extract_drive_id_spec.2.1 "https://h.example/get?id=QQ77" "QQ77".data (by decide) (by decide),
    extract_drive_id_spec.2.2.1 "https://example.com/page" (by decide) (by decide)⟩

/-- C5: the destination filename prefers the `filename` query parameter,
otherwise uses the basename of the URL path, otherwise the placeholder
`downloaded_file`; the chosen name is never empty. -/
theorem inferred_filename_spec (url : String) :
    inferred_filename url ≠ "" ∧
    (∀ v, parse_qs_first (urlQueryChars url.data) "filename".data = some v →
      inferred_filename url = String.mk v) ∧
    (parse_qs_first (urlQueryChars url.data) "filename".data = none →
      (basenameChars (urlPathChars url.data) ≠ [] →
        inferred_filename url = String.mk (basenameChars (urlPathChars url.data))) ∧
      (basenameChars (urlPathChars url.data) = [] →
        inferred_filename url = "downloaded_file")) := by
  refine ⟨?_, ?_, ?_⟩
  · cases hq : parse_qs_first (urlQueryChars url.data) "filename".data with
    | some v =>
      have hv : inferred_filename url = String.mk v := by simp [inferred_filename, hq]
      rw [hv]
      intro he
      exact parse_qs_first_ne_nil hq (congrArg String.data he)
    | none =>
      by_cases hb : basenameChars (urlPathChars url.data) = []
      · have hdf : inferred_filename url = "downloaded_file" := by
          simp [inferred_filename, hq, hb]
        rw [hdf]
        decide
      · have hb' : (basenameChars (urlPathChars url.data)).isEmpty = false := by
          simpa [List.isEmpty_iff] using hb
        have hbase : inferred_filename url =
            String.mk (basenameChars (urlPathChars url.data)) := by
          simp [inferred_filename, hq, hb']
        rw [hbase]
        intro he
        exact hb (congrArg String.data he)
  · intro v hv
    simp [inferred_filename, hv]
  · intro hq
    constructor
    · intro hb
      have hb' : (basenameChars (urlPathChars url.data)).isEmpty = false := by
        simpa [List.isEmpty_iff] using hb
      simp [inferred_filename, hq, hb']
    · intro hb
      simp [inferred_filename, hq, hb]

/-- C5 (witness): the `filename` query parameter takes precedence for a
concrete URL carrying one. -/
theorem inferred_filename_spec_witness :
    inferred_filename "https://h.example/a/data.tar?filename=x.bin&y=2" = "x.bin" :=
  (inferred_filename_spec "https://h.example/a/data.tar?filename=x.bin&y=2").2.1
    "x.bin".data (by decide)

/-- C6 (counterexample): a page whose anchors appear in document order
`bbb` before `aaa` yields the links in sorted order `aaa, bbb`: the
returned order is not the document order of appearance. -/
theorem find_links_order_counterexample :
    find_links_on_page "http://s.example/"
        ["https://bbb.example/x", "https://aaa.example/y"] =
      ["https://aaa.example/y", "https://bbb.example/x"] ∧
    ("https://bbb.example/x" : String) ≠ "https://aaa.example/y" := by
  refine ⟨by decide, by decide⟩

/-- C6 (amended): for every fetched seed page the returned sequence of
absolute URLs is deduplicated within that page and its order is the
lexicographically sorted order of the URLs (Python `sorted` over a `set`),
not the document order of appearance; its members are exactly the resolved
non-mailto, non-javascript hrefs. -/
theorem find_links_sorted_dedup (base : String) (hrefs : List String) :
    (find_links_on_page base hrefs).Nodup ∧
    (find_links_on_page base hrefs).Pairwise (fun a b => strLe a b = true) ∧
    ∀ u : String, u ∈ find_links_on_page base hrefs ↔
      u ∈ (((hrefs.map fun h => String.mk (stripChars h.data)).filter fun h =>
          !("mailto:".data.isPrefixOf h.data || "javascript:".data.isPrefixOf h.data)).map
        (urljoin base)) := by
  refine ⟨sortStrings_nodup (List.nodup_dedup _), sortStrings_sorted _, ?_⟩
  intro u
  exact ((sortStrings_perm _).mem_iff).trans (List.mem_dedup)

/-- C7: for a non-cloud-drive candidate, a present wget exiting non-zero is
recorded as a transient failure and the cascade continues to the streaming
fetch; an absent wget is recorded as capability unavailable and likewise
falls through to the streaming fetch. -/
theorem wget_failure_falls_through (env : Env) (url : String)
    (h : is_google_drive url = false) :
    (env.wget_available = true → env.wget_exit_zero = false →
      try_download_link env url =
        ([⟨Strategy.wget, Outcome.transient_failure⟩, streamAttempt env], env.stream_ok)) ∧
    (env.wget_available = false →
      try_download_link env url =
        ([⟨Strategy.wget, Outcome.capability_unavailable⟩, streamAttempt env], env.stream_ok)) := by
  constructor
  · intro h1 h2
    simp [try_download_link, h, h1, h2]
  · intro h1
    simp [try_download_link, h, h1]

/-- C7 (witness): a concrete non-drive URL with wget present but failing,
and with wget absent, both ending in a streaming attempt. -/
theorem wget_failure_falls_through_witness :
    try_download_link ⟨true, true, true, false, true⟩ "https://host.example/a.zip" =
      ([⟨Strategy.wget, Outcome.transient_failure⟩, ⟨Strategy.stream, Outcome.success⟩], true) ∧
    try_download_link ⟨true, true, false, false, true⟩ "https://host.example/a.zip" =
      ([⟨Strategy.wget, Outcome.capability_unavailable⟩, ⟨Strategy.stream, Outcome.success⟩],
        true) :=
  ⟨(wget_failure_falls_through ⟨true, true, true, false, true⟩ _ (by decide)).1 rfl rfl,
    (wget_failure_falls_through ⟨true, true, false, false, true⟩ _ (by decide)).2 rfl⟩

/-- C8: in dry-run mode the orchestrator creates the output directory but
writes no file inside it and invokes no transfer strategy, for every
environment, fetch capability, seed list and output directory. -/
theorem dry_run_no_files (env : Env) (fetch : String → List String)
    (pages : List String) (outdir : String) :
    (main_run env fetch pages outdir true).outdir_created = true ∧
    (main_run env fetch pages outdir true).files_written = [] ∧
    (main_run env fetch pages outdir true).cascade_invoked = [] := by
  simp only [main_run]
  split_ifs <;> exact ⟨rfl, rfl, rfl⟩

/-- C9: cloud-drive detection is a substring test over the whole URL, so a
URL containing `drive.google.com` or `docs.google.com` anywhere (even in
the query of an unrelated host) is routed to the cloud-drive branch and
every attempt of its cascade is the drive strategy: it is never handed to
the external tool or the streaming fetch. -/
theorem drive_substring_routing (env : Env) (url : String)
    (h : subList "drive.google.com".data url.data = true ∨
      subList "docs.google.com".data url.data = true) :
    is_google_drive url = true ∧
    ∀ a ∈ (try_download_link env url).1, a.strategy = Strategy.drive := by
  have hg : is_google_drive url = true := by
    unfold is_google_drive
    rcases h with h | h <;> simp [h]
  refine ⟨hg, ?_⟩
  intro a ha
  simp only [try_download_link, hg] at ha
  rw [if_pos trivial] at ha
  cases hx : extract_drive_id url with
  | none =>
    rw [hx] at ha
    simp only [List.mem_singleton] at ha
    simp [ha]
  | some i =>
    rw [hx] at ha
    split_ifs at ha <;> simp only [List.mem_singleton] at ha <;> simp [ha]

/-- C9 (witness): an unrelated host carrying `drive.google.com` in its
query string is routed entirely to the drive strategy. -/
theorem drive_substring_routing_witness :
    is_google_drive "https://evil.example/page?next=drive.google.com" = true ∧
    ∀ a ∈ (try_download_link ⟨true, true, true, true, true⟩
        "https://evil.example/page?next=drive.google.com").1,
      a.strategy = Strategy.drive :=
  drive_substring_routing ⟨true, true, true, true, true⟩
    "https://evil.example/page?next=drive.google.com" (Or.inl (by decide))

/-- C10: when a URL contains both a `/d/<id>` segment and an `id` query
parameter the `/d/` match wins, and the `/d/` pattern is searched over the
whole URL string, matching even inside the query: whenever the pattern
matches, its capture is returned regardless of any `id` parameter. -/
theorem drive_id_pattern_precedence :
    (∀ (url : String) (i : List Char), findDriveId url.data = some i →
      extract_drive_id url = some (String.mk i)) ∧
    extract_drive_id "https://drive.google.com/file/d/PATHID/view?id=QUERYID" = some "PATHID" ∧
    parse_qs_first
        (urlQueryChars "https://drive.google.com/file/d/PATHID/view?id=QUERYID".data)
        "id".data = some "QUERYID".data ∧
    extract_drive_id "https://example.com/open?x=/d/QID&id=OTHER" = some "QID" := by
  refine ⟨?_, by decide, by decide, by decide⟩
  intro url i h
  simp [extract_drive_id, h]

/-- C10 (witness): the general precedence clause instantiated at a URL
whose `/d/` segment and `id` parameter disagree. -/
theorem drive_id_pattern_precedence_witness :
    extract_drive_id "https://a.example/d/ZED?id=OTHER" = some "ZED" :=
  drive_id_pattern_precedence.1 "https://a.example/d/ZED?id=OTHER" "ZED".data (by decide)

end Downloader
